import Mathlib

/-!
Verification development for the OpenGL terrain/path playback renderer in
src/proto/gpx_to_3d_win.py (function plot_terrain_3d_opengl and its nested
input callbacks).  Numeric code is embedded over exact rationals (and over
the reals where the source uses sqrt / arcsin); numpy array operations are
embedded as functions over index functions together with explicit
dimensions.
-/

/-- Three-component vector with rational coordinates, modelling one row of a
numpy float array of shape (·, 3). -/
structure V3Q where
  x : ℚ
  y : ℚ
  z : ℚ
deriving DecidableEq, Repr

/-- Componentwise vector addition (numpy elementwise +). -/
def vadd (a b : V3Q) : V3Q := ⟨a.x + b.x, a.y + b.y, a.z + b.z⟩

/-- Componentwise vector subtraction (numpy elementwise -). -/
def vsub (a b : V3Q) : V3Q := ⟨a.x - b.x, a.y - b.y, a.z - b.z⟩

/-- Scalar multiple of a vector (numpy scalar * array). -/
def vscale (a : ℚ) (v : V3Q) : V3Q := ⟨a * v.x, a * v.y, a * v.z⟩

/-- Clamp a ratio into the unit interval; the source writes
max(0.0, min(1.0, ratio)). -/
def clamp01 (r : ℚ) : ℚ := max 0 (min 1 r)

/-! ## UI layout constants

Copied from plot_terrain_3d_opengl: NAV_X, NAV_Y = 20, 20; NAV_W, NAV_H =
320, 180; UI_X, UI_Y = 20, NAV_Y + NAV_H + 16; UI_W, UI_H = 200, 20;
SPEED_UI_Y = UI_Y + 40; PLAY_BTN_Y = SPEED_UI_Y + 40; PLAY_BTN_W = 60. -/

def UI_X : ℚ := 20
def UI_Y : ℚ := 216
def UI_W : ℚ := 200
def UI_H : ℚ := 20
def SPEED_UI_Y : ℚ := 256
def PLAY_BTN_Y : ℚ := 296
def PLAY_BTN_W : ℚ := 60

/-- Mutable interaction state: the fields of the state dictionary of
plot_terrain_3d_opengl that the input callbacks and the per-frame playback
step read and write. -/
structure PState where
  playing : Bool
  playback_time : ℚ
  speed_scale : ℚ
  z_scale : ℚ
  dragging : Bool
  ui_dragging : Bool
  speed_dragging : Bool
  progress_dragging : Bool
  dist : ℚ
  rot_x : ℚ
  rot_z : ℚ
  last_x : ℚ
  last_y : ℚ
deriving DecidableEq, Repr

/-- Initial state dictionary of plot_terrain_3d_opengl. -/
def initState : PState :=
  { playing := false
    playback_time := 0
    speed_scale := 3
    z_scale := 3/2
    dragging := false
    ui_dragging := false
    speed_dragging := false
    progress_dragging := false
    dist := 300
    rot_x := 45
    rot_z := 0
    last_x := 0
    last_y := 0 }

/-- Left mouse button press handler, from mouse_button_callback
(action == PRESS branch).  Arguments: total playback duration, cursor
position (x, y) and logical window size (w, h) at the time of the click. -/
def mousePress (total x y w h : ℚ) (s : PState) : PState :=
  let prog_width := max 10 (w - 40)
  let prog_y := h - 30
  let in_z_slider := UI_X ≤ x ∧ x ≤ UI_X + UI_W ∧ UI_Y ≤ y ∧ y ≤ UI_Y + UI_H
  let in_speed_slider :=
    UI_X ≤ x ∧ x ≤ UI_X + UI_W ∧ SPEED_UI_Y ≤ y ∧ y ≤ SPEED_UI_Y + UI_H
  let in_play_btn :=
    UI_X ≤ x ∧ x ≤ UI_X + PLAY_BTN_W ∧ PLAY_BTN_Y ≤ y ∧ y ≤ PLAY_BTN_Y + UI_H
  let in_progress := 20 ≤ x ∧ x ≤ 20 + prog_width ∧ prog_y ≤ y ∧ y ≤ prog_y + 10
  if in_z_slider then
    { s with ui_dragging := true, z_scale := 1 + clamp01 ((x - UI_X) / UI_W) * 4 }
  else if in_speed_slider then
    { s with speed_dragging := true,
             speed_scale := 1 + clamp01 ((x - UI_X) / UI_W) * 49 }
  else if in_progress then
    { s with progress_dragging := true,
             playback_time := clamp01 ((x - 20) / prog_width) * total }
  else if in_play_btn then
    let s1 := { s with playing := !s.playing }
    if s1.playing = true then
      if s1.playback_time ≥ total then { s1 with playback_time := 0 } else s1
    else s1
  else
    { s with dragging := true, last_x := x, last_y := y }

/-- Left mouse button release handler, from mouse_button_callback
(action == RELEASE branch): all four drag flags are cleared. -/
def mouseRelease (s : PState) : PState :=
  { s with dragging := false
           ui_dragging := false
           speed_dragging := false
           progress_dragging := false }

/-- Cursor motion handler, from cursor_position_callback. -/
def cursorMove (total x y w _h : ℚ) (s : PState) : PState :=
  if s.ui_dragging = true then
    { s with z_scale := 1 + clamp01 ((x - UI_X) / UI_W) * 4 }
  else if s.speed_dragging = true then
    { s with speed_scale := 1 + clamp01 ((x - UI_X) / UI_W) * 49 }
  else if s.progress_dragging = true then
    { s with playback_time := clamp01 ((x - 20) / max 10 (w - 40)) * total }
  else if s.dragging = true then
    { s with rot_z := s.rot_z - (x - s.last_x) * (1/2)
             rot_x := max 10 (min 89 (s.rot_x + (y - s.last_y) * (1/2)))
             last_x := x
             last_y := y }
  else s

/-- Scroll wheel handler, from scroll_callback. -/
def scrollEvent (yoffset : ℚ) (s : PState) : PState :=
  { s with dist := s.dist * (if yoffset > 0 then 9/10 else 11/10) }

/-- Per-frame playback advance, from the render loop: while playing and not
scrub-dragging, playback_time increases by dt * speed_scale and is clamped
at total, which also stops playback. -/
def tickPB (total dt : ℚ) (s : PState) : PState :=
  if s.playing = true ∧ s.progress_dragging = false then
    let t' := s.playback_time + dt * s.speed_scale
    if t' ≥ total then { s with playback_time := total, playing := false }
    else { s with playback_time := t' }
  else s

/-- Input/frame events dispatched by the render loop to the state
machine. -/
inductive Ev where
  | press (x y w h : ℚ)
  | release
  | move (x y w h : ℚ)
  | scroll (yoffset : ℚ)
  | tick (dt : ℚ)
deriving DecidableEq, Repr

/-- One dispatch step of the render loop. -/
def stepEv (total : ℚ) (s : PState) (e : Ev) : PState :=
  match e with
  | .press x y w h => mousePress total x y w h s
  | .release => mouseRelease s
  | .move x y w h => cursorMove total x y w h s
  | .scroll yoffset => scrollEvent yoffset s
  | .tick dt => tickPB total dt s

/-- Run an event sequence from the initial state. -/
def runEv (total : ℚ) (evs : List Ev) : PState :=
  evs.foldl (stepEv total) initState

/-- Frame ticks carry a nonnegative wall-clock delta. -/
def evOK : Ev → Bool
  | .tick dt => decide (0 ≤ dt)
  | _ => true

/-- Playback state invariant: the cursor stays inside the time span and the
speed multiplier stays inside the slider range. -/
def PInv (total : ℚ) (s : PState) : Prop :=
  0 ≤ s.playback_time ∧ s.playback_time ≤ total ∧
    1 ≤ s.speed_scale ∧ s.speed_scale ≤ 50

/-! ## Drag-mode exclusivity -/

/-- Number of active drag modes among camera-orbit drag, exaggeration-slider
drag, speed-slider drag and progress-bar drag. -/
def dragCount (s : PState) : ℕ :=
  (if s.dragging then 1 else 0) + (if s.ui_dragging then 1 else 0) +
    (if s.speed_dragging then 1 else 0) + (if s.progress_dragging then 1 else 0)

/-- Well-formed event sequences: a left-button press is only delivered while
the left button is up, as GLFW reports press and release transitions of one
button in alternation.  The boolean argument tracks whether the button is
currently down. -/
def WFevs : Bool → List Ev → Prop
  | _, [] => True
  | down, Ev.press _ _ _ _ :: rest => down = false ∧ WFevs true rest
  | _, Ev.release :: rest => WFevs false rest
  | down, Ev.move _ _ _ _ :: rest => WFevs down rest
  | down, Ev.scroll _ :: rest => WFevs down rest
  | down, Ev.tick _ :: rest => WFevs down rest

/-! ## Playback position lookup

The render loop computes the marker position from the playback cursor by
idx = np.searchsorted(rel_times, cur_t, side='right') - 1 clamped into
[0, n-2], followed by linear interpolation over the bracketing segment with
a 1e-6 guard on the time gap. -/

/-- Count of sample times that are at most t.  For a sorted array this is
exactly what np.searchsorted(rel_times, t, side='right') returns. -/
def searchsortedR (n : ℕ) (ts : ℕ → ℚ) (t : ℚ) : ℕ :=
  ((Finset.range n).filter (fun j => ts j ≤ t)).card

/-- Bracketing index: idx = max(0, min(n - 2, searchsorted - 1)), computed
in ℤ as the source computes it on signed numpy integers. -/
def lookupIdx (n : ℕ) (ts : ℕ → ℚ) (t : ℚ) : ℕ :=
  (max 0 (min ((n : ℤ) - 2) ((searchsortedR n ts t : ℤ) - 1))).toNat

/-- Marker position at playback time t: the source interpolates
cur_pos = p1 + (p2 - p1) * alpha with alpha = (t - t1) / (t2 - t1) when
t2 - t1 > 1e-6 and alpha = 0 otherwise. -/
def positionAt (n : ℕ) (ts : ℕ → ℚ) (p : ℕ → V3Q) (t : ℚ) : V3Q :=
  let i := lookupIdx n ts t
  let t1 := ts i
  let t2 := ts (i + 1)
  let alpha := if t2 - t1 > 1 / 1000000 then (t - t1) / (t2 - t1) else 0
  vadd (p i) (vscale alpha (vsub (p (i + 1)) (p i)))

/-- Time offsets are strictly increasing over the first n samples. -/
def StrictTimes (n : ℕ) (ts : ℕ → ℚ) : Prop :=
  ∀ a b : ℕ, a < b → b < n → ts a < ts b

/-! ## Downsampled grid, scene scaling and terrain mesh

The source flattens the downsampled grids X_ds, Y_ds, dem_ds (numpy 2D
arrays) while computing mins, maxes, ranges, the isotropic scene scale, the
vertex array and the triangle index array.  Grids are embedded as index
functions together with explicit row/column counts. -/

/-- Row-major list of the grid entries, as numpy .flatten() would produce. -/
def gridVals (rows cols : ℕ) (F : ℕ → ℕ → ℚ) : List ℚ :=
  (List.range rows).flatMap (fun r => (List.range cols).map (fun c => F r c))

/-- Maximum of a list of rationals, as numpy .max(); numpy raises on an
empty array, and the empty default 0 here is only reachable for empty
grids, which sceneBuild rejects before using it. -/
def listMaxD : List ℚ → ℚ
  | [] => 0
  | x :: xs => xs.foldl max x

/-- Minimum of a list of rationals, as numpy .min(); same empty-array
caveat as listMaxD. -/
def listMinD : List ℚ → ℚ
  | [] => 0
  | x :: xs => xs.foldl min x

/-- Coordinate range of a grid: F.max() - F.min(). -/
def gridRange (rows cols : ℕ) (F : ℕ → ℕ → ℚ) : ℚ :=
  listMaxD (gridVals rows cols F) - listMinD (gridVals rows cols F)

/-- Scene-scale divisor, from the source: max_dim = max(range_x, range_y,
range_z); if max_dim == 0: max_dim = 1.0. -/
def sceneDivisor (range_x range_y range_z : ℚ) : ℚ :=
  let max_dim := max range_x (max range_y range_z)
  if max_dim = 0 then 1 else max_dim

/-- Isotropic scene scale, from the source: global_scale = target_size /
max_dim with target_size = 200.0 (the spec's targetSceneSize). -/
def sceneScale (range_x range_y range_z : ℚ) : ℚ :=
  let target_size : ℚ := 200
  target_size / sceneDivisor range_x range_y range_z

/-- Scene scale computed from the three local coordinate grids. -/
def globalScaleOf (rows cols : ℕ) (Xl Yl Zl : ℕ → ℕ → ℚ) : ℚ :=
  sceneScale (gridRange rows cols Xl) (gridRange rows cols Yl)
    (gridRange rows cols Zl)

/-- Vertex list of the terrain mesh: vertices = np.stack([X_ds, Y_ds,
Z_ds], axis=2).reshape(-1, 3), i.e. one vertex per grid cell in row-major
order. -/
def meshVertices (rows cols : ℕ) (V : ℕ → ℕ → V3Q) : List V3Q :=
  (List.range rows).flatMap (fun r => (List.range cols).map (fun c => V r c))

/-- First triangle of every grid cell: p00 -> p10 -> p01 with
pRC = (r + R) * cols + (c + C), flattened in row-major cell order. -/
def triIdx1 (rows cols : ℕ) : List ℕ :=
  (List.range (rows - 1)).flatMap (fun r =>
    (List.range (cols - 1)).flatMap (fun c =>
      [r * cols + c, (r + 1) * cols + c, r * cols + (c + 1)]))

/-- Second triangle of every grid cell: p10 -> p11 -> p01. -/
def triIdx2 (rows cols : ℕ) : List ℕ :=
  (List.range (rows - 1)).flatMap (fun r =>
    (List.range (cols - 1)).flatMap (fun c =>
      [(r + 1) * cols + c, (r + 1) * cols + (c + 1), r * cols + (c + 1)]))

/-- Flattened triangle index array: indices = np.vstack([t1,
t2]).flatten(), i.e. all first triangles followed by all second
triangles. -/
def meshIndices (rows cols : ℕ) : List ℕ := triIdx1 rows cols ++ triIdx2 rows cols

/-- Scene construction as a fallible function.  The source has no explicit
guard: an empty downsampled grid makes dem_ds.min() raise ValueError, and a
single-row or single-column grid makes np.gradient raise ValueError while
computing normals; either uncaught exception aborts plot_terrain_3d_opengl
before the mesh arrays are complete and before the render loop is reached,
which this embedding represents by the error branches. -/
def sceneBuild (rows cols : ℕ) (V : ℕ → ℕ → V3Q) :
    Except String (List V3Q × List ℕ) :=
  if rows = 0 ∨ cols = 0 then
    .error "ValueError: zero-size array to reduction operation minimum"
  else if rows < 2 ∨ cols < 2 then
    .error "ValueError: Shape of array too small to calculate a numerical gradient"
  else
    .ok (meshVertices rows cols V, meshIndices rows cols)

/-! ## Normals and turn angles over the reals

np.linalg.norm and np.arcsin have no rational counterpart, so the normal
and turn-angle computations are embedded over ℝ. -/

/-- Three-component real vector. -/
structure V3R where
  x : ℝ
  y : ℝ
  z : ℝ

/-- Cross product, as np.cross on the last axis. -/
noncomputable def crossR (a b : V3R) : V3R :=
  ⟨a.y * b.z - a.z * b.y, a.z * b.x - a.x * b.z, a.x * b.y - a.y * b.x⟩

/-- Euclidean length, as np.linalg.norm(v). -/
noncomputable def normR (v : V3R) : ℝ := Real.sqrt (v.x ^ 2 + v.y ^ 2 + v.z ^ 2)

/-- Row-direction derivative of a grid, matching np.gradient along axis 0
with the default edge_order = 1: one-sided differences at the first and
last rows, central differences inside. -/
noncomputable def gradRow (rows : ℕ) (F : ℕ → ℕ → ℝ) (r c : ℕ) : ℝ :=
  if r = 0 then F 1 c - F 0 c
  else if r = rows - 1 then F (rows - 1) c - F (rows - 2) c
  else (F (r + 1) c - F (r - 1) c) / 2

/-- Column-direction derivative of a grid, matching np.gradient along
axis 1. -/
noncomputable def gradCol (cols : ℕ) (F : ℕ → ℕ → ℝ) (r c : ℕ) : ℝ :=
  if c = 0 then F r 1 - F r 0
  else if c = cols - 1 then F r (cols - 1) - F r (cols - 2)
  else (F r (c + 1) - F r (c - 1)) / 2

/-- Row tangent Tr = np.stack([dX_dr, dY_dr, dZ_dr], axis=2) at one
cell. -/
noncomputable def tangentRow (rows : ℕ) (X Y Z : ℕ → ℕ → ℝ) (r c : ℕ) : V3R :=
  ⟨gradRow rows X r c, gradRow rows Y r c, gradRow rows Z r c⟩

/-- Column tangent Tc = np.stack([dX_dc, dY_dc, dZ_dc], axis=2) at one
cell. -/
noncomputable def tangentCol (cols : ℕ) (X Y Z : ℕ → ℕ → ℝ) (r c : ℕ) : V3R :=
  ⟨gradCol cols X r c, gradCol cols Y r c, gradCol cols Z r c⟩

/-- Unnormalized normal of one cell: normals = np.cross(Tr, Tc). -/
noncomputable def crossAt (rows cols : ℕ) (X Y Z : ℕ → ℕ → ℝ) (r c : ℕ) : V3R :=
  crossR (tangentRow rows X Y Z r c) (tangentCol cols X Y Z r c)

/-- Stored normal of one cell, following
norm = np.linalg.norm(normals, axis=2); norm[norm == 0] = 1.0;
normals = normals / norm. -/
noncomputable def normalAt (rows cols : ℕ) (X Y Z : ℕ → ℕ → ℝ) (r c : ℕ) : V3R :=
  let nv := crossAt rows cols X Y Z r c
  let L := normR nv
  let L2 := if L = 0 then 1 else L
  ⟨nv.x / L2, nv.y / L2, nv.z / L2⟩

/-! ## Look-ahead turn angle -/

/-- Horizontal (xy-plane) length of path segment i, as
np.linalg.norm applied to (path_pts[i+1] - path_pts[i])[:2]. -/
noncomputable def segLen2D (p : ℕ → V3R) (i : ℕ) : ℝ :=
  Real.sqrt (((p (i + 1)).x - (p i).x) ^ 2 + ((p (i + 1)).y - (p i).y) ^ 2)

/-- Normalized 2D cross product of segment i with the look-ahead segment
j = min(i + 5, n - 2): cross = d1[0] * d2[1] - d1[1] * d2[0] after
dividing both segment vectors by their horizontal lengths. -/
noncomputable def lookCross (n : ℕ) (p : ℕ → V3R) (i : ℕ) : ℝ :=
  let j := min (i + 5) (n - 2)
  (((p (i + 1)).x - (p i).x) / segLen2D p i) *
      (((p (j + 1)).y - (p j).y) / segLen2D p j) -
    (((p (i + 1)).y - (p i).y) / segLen2D p i) *
      (((p (j + 1)).x - (p j).x) / segLen2D p j)

/-- Loop body of the turn-angle precomputation:
turn_angles[i] = np.arcsin(np.clip(cross, -1, 1)) when both segment
lengths exceed 1e-6, else 0. -/
noncomputable def turnRaw (n : ℕ) (p : ℕ → V3R) (i : ℕ) : ℝ :=
  if 1 / 1000000 < segLen2D p i ∧ 1 / 1000000 < segLen2D p (min (i + 5) (n - 2))
  then Real.arcsin (max (-1) (min 1 (lookCross n p i)))
  else 0

/-- Final contents of the turn_angles array for a path of n points
(n ≥ 3): indices below n - 2 are set by the loop, and the source then
copies turn_angles[-3] into the last two entries
(turn_angles[-2] = turn_angles[-3]; turn_angles[-1] = turn_angles[-2]). -/
noncomputable def turnAngles (n : ℕ) (p : ℕ → V3R) (i : ℕ) : ℝ :=
  if i + 2 < n then turnRaw n p i else turnRaw n p (n - 3)

/-! ## Concrete inputs used by the claim theorems below -/

/-- Interaction state that is Playing at cursor 50 seconds. -/
def s8 : PState := { initState with playing := true, playback_time := 50 }

/-- Two-sample time offsets 0, 1. -/
def tsC7 : ℕ → ℚ := fun i => i

/-- Two-sample positions (0,0,0), (1,0,0), extended linearly. -/
def pC7 : ℕ → V3Q := fun i => ⟨i, 0, 0⟩

/-- Two strictly increasing time offsets with a gap of exactly 1e-6. -/
def tsC2 : ℕ → ℚ := fun i => if i = 0 then 0 else 1 / 1000000

/-- Two distinct sample positions. -/
def pC2 : ℕ → V3Q := fun i => if i = 0 then ⟨0, 0, 0⟩ else ⟨1, 0, 0⟩

/-- Scenario time offsets t = 0, 10, 20, ... seconds. -/
def tsSc : ℕ → ℚ := fun i => 10 * i

/-- Sample positions used to instantiate the interpolation theorem. -/
def pSc : ℕ → V3Q := fun i => ⟨i, 2 * i, 0⟩

/-- Grid holding the constant elevation 5. -/
def demC9 : ℕ → ℕ → ℚ := fun _ _ => 5

/-- Local X coordinates spanning 100 scene units across the two columns. -/
def XC9 : ℕ → ℕ → ℚ := fun _ c => 100 * c

/-- Local Y coordinates spanning 100 scene units across the two rows. -/
def YC9 : ℕ → ℕ → ℚ := fun r _ => 100 * r

/-- Local Z coordinates: dem_ds - z_min for the constant grid. -/
def ZC9 : ℕ → ℕ → ℚ := fun r c => demC9 r c - listMinD (gridVals 2 2 demC9)

/-- Scaled X grid increasing by 1 per column. -/
def X4 : ℕ → ℕ → ℝ := fun _ c => c

/-- Scaled Y grid increasing by 1 per row. -/
def Y4 : ℕ → ℕ → ℝ := fun r _ => r

/-- Flat scaled height grid. -/
def Z4 : ℕ → ℕ → ℝ := fun _ _ => 0

/-- Grid of zeros in all three coordinates: every tangent vanishes. -/
def Z0grid : ℕ → ℕ → ℝ := fun _ _ => 0

/-- Path heading north from (0,0) to (0,1), then bending right (east) to
(1,1). -/
noncomputable def pathC3 : ℕ → V3R := fun i =>
  if i = 0 then ⟨0, 0, 0⟩ else if i = 1 then ⟨0, 1, 0⟩ else ⟨1, 1, 0⟩

/-! ## Lemmas, claim theorems, witnesses and counterexamples -/

/-! ## Basic bounds lemmas for the state machine -/

theorem clamp01_nonneg (r : ℚ) : 0 ≤ clamp01 r := le_max_left 0 (min 1 r)

theorem clamp01_le_one (r : ℚ) : clamp01 r ≤ 1 := by
  unfold clamp01
  apply max_le
  · norm_num
  · exact min_le_left 1 r

theorem clamp01_mul_mem (r total : ℚ) (h : 0 ≤ total) :
    0 ≤ clamp01 r * total ∧ clamp01 r * total ≤ total := by
  constructor
  · exact mul_nonneg (clamp01_nonneg r) h
  · nlinarith [clamp01_le_one r, clamp01_nonneg r]

theorem speed_from_slider_mem (r : ℚ) :
    1 ≤ 1 + clamp01 r * 49 ∧ 1 + clamp01 r * 49 ≤ 50 := by
  constructor
  · nlinarith [clamp01_nonneg r]
  · nlinarith [clamp01_le_one r]

theorem pinv_initState (total : ℚ) (h : 0 ≤ total) : PInv total initState := by
  refine ⟨le_refl 0, h, ?_, ?_⟩ <;> norm_num [initState]

theorem pinv_mousePress (total x y w h : ℚ) (s : PState) (htot : 0 ≤ total)
    (hs : PInv total s) : PInv total (mousePress total x y w h s) := by
  obtain ⟨h0, h1, h2, h3⟩ := hs
  unfold mousePress
  dsimp only
  split_ifs <;>
    exact ⟨by first | assumption | exact (clamp01_mul_mem _ _ htot).1 | exact le_refl 0,
           by first | assumption | exact (clamp01_mul_mem _ _ htot).2 | assumption,
           by first | assumption | exact (speed_from_slider_mem _).1,
           by first | assumption | exact (speed_from_slider_mem _).2⟩

theorem pinv_mouseRelease (total : ℚ) (s : PState) (hs : PInv total s) :
    PInv total (mouseRelease s) := hs

theorem pinv_cursorMove (total x y w h : ℚ) (s : PState) (htot : 0 ≤ total)
    (hs : PInv total s) : PInv total (cursorMove total x y w h s) := by
  obtain ⟨h0, h1, h2, h3⟩ := hs
  unfold cursorMove
  split_ifs <;>
    exact ⟨by first | assumption | exact (clamp01_mul_mem _ _ htot).1,
           by first | assumption | exact (clamp01_mul_mem _ _ htot).2,
           by first | assumption | exact (speed_from_slider_mem _).1,
           by first | assumption | exact (speed_from_slider_mem _).2⟩

theorem pinv_scrollEvent (total yoffset : ℚ) (s : PState) (hs : PInv total s) :
    PInv total (scrollEvent yoffset s) := hs

theorem pinv_tickPB (total dt : ℚ) (s : PState) (htot : 0 ≤ total) (hdt : 0 ≤ dt)
    (hs : PInv total s) : PInv total (tickPB total dt s) := by
  obtain ⟨h0, h1, h2, h3⟩ := hs
  have hstep : 0 ≤ dt * s.speed_scale := mul_nonneg hdt (by linarith)
  unfold tickPB
  dsimp only
  split_ifs with hplay hend
  · exact ⟨htot, le_refl total, h2, h3⟩
  · exact ⟨show 0 ≤ s.playback_time + dt * s.speed_scale by linarith,
           le_of_not_ge hend, h2, h3⟩
  · exact ⟨h0, h1, h2, h3⟩

theorem pinv_stepEv (total : ℚ) (s : PState) (e : Ev) (htot : 0 ≤ total)
    (he : evOK e = true) (hs : PInv total s) : PInv total (stepEv total s e) := by
  cases e with
  | press x y w h => exact pinv_mousePress total x y w h s htot hs
  | release => exact pinv_mouseRelease total s hs
  | move x y w h => exact pinv_cursorMove total x y w h s htot hs
  | scroll yoffset => exact pinv_scrollEvent total yoffset s hs
  | tick dt =>
      exact pinv_tickPB total dt s htot (by simpa [evOK] using he) hs

theorem pinv_foldl (total : ℚ) (htot : 0 ≤ total) :
    ∀ (evs : List Ev) (s : PState), (∀ e ∈ evs, evOK e = true) →
      PInv total s → PInv total (evs.foldl (stepEv total) s) := by
  intro evs
  induction evs with
  | nil => intro s _ hs; exact hs
  | cons e rest ih =>
      intro s hok hs
      have he : evOK e = true := hok e (List.mem_cons_self e rest)
      have hrest : ∀ e' ∈ rest, evOK e' = true := fun e' h' =>
        hok e' (List.mem_cons_of_mem e h')
      exact ih (stepEv total s e) hrest (pinv_stepEv total s e htot he hs)

theorem dragCount_eq_zero_iff (s : PState) :
    dragCount s = 0 ↔ s.dragging = false ∧ s.ui_dragging = false ∧
      s.speed_dragging = false ∧ s.progress_dragging = false := by
  unfold dragCount
  cases hd : s.dragging <;> cases hu : s.ui_dragging <;>
    cases hv : s.speed_dragging <;> cases hp : s.progress_dragging <;> simp

theorem dragCount_mouseRelease (s : PState) : dragCount (mouseRelease s) = 0 := by
  simp [dragCount, mouseRelease]

theorem dragCount_mousePress_le_one (total x y w h : ℚ) (s : PState)
    (hs : dragCount s = 0) : dragCount (mousePress total x y w h s) ≤ 1 := by
  obtain ⟨hd, hu, hv, hp⟩ := (dragCount_eq_zero_iff s).mp hs
  unfold mousePress
  dsimp only
  split_ifs <;> simp [dragCount, hd, hu, hv, hp]

theorem dragCount_cursorMove (total x y w h : ℚ) (s : PState) :
    dragCount (cursorMove total x y w h s) = dragCount s := by
  unfold cursorMove
  split_ifs <;> rfl

theorem dragCount_scrollEvent (yoffset : ℚ) (s : PState) :
    dragCount (scrollEvent yoffset s) = dragCount s := rfl

theorem dragCount_tickPB (total dt : ℚ) (s : PState) :
    dragCount (tickPB total dt s) = dragCount s := by
  unfold tickPB
  dsimp only
  split_ifs <;> rfl

theorem dragCount_foldl_le_one (total : ℚ) :
    ∀ (evs : List Ev) (down : Bool) (s : PState), WFevs down evs →
      (down = false → dragCount s = 0) → dragCount s ≤ 1 →
      dragCount (evs.foldl (stepEv total) s) ≤ 1 := by
  intro evs
  induction evs with
  | nil => intro down s _ _ h1; exact h1
  | cons e rest ih =>
      intro down s hwf hclear h1
      cases e with
      | press x y w h =>
          simp only [WFevs] at hwf
          obtain ⟨hdown, hwf1⟩ := hwf
          have hs0 : dragCount s = 0 := hclear hdown
          exact ih true _ hwf1 (fun hc => Bool.noConfusion hc)
            (dragCount_mousePress_le_one total x y w h s hs0)
      | release =>
          simp only [WFevs] at hwf
          exact ih false _ hwf (fun _ => dragCount_mouseRelease s)
            ((dragCount_mouseRelease s).trans_le (by norm_num))
      | move x y w h =>
          simp only [WFevs] at hwf
          exact ih down _ hwf
            (fun hd => (dragCount_cursorMove total x y w h s).trans (hclear hd))
            ((dragCount_cursorMove total x y w h s).trans_le h1)
      | scroll yoffset =>
          simp only [WFevs] at hwf
          exact ih down _ hwf
            (fun hd => (dragCount_scrollEvent yoffset s).trans (hclear hd))
            ((dragCount_scrollEvent yoffset s).trans_le h1)
      | tick dt =>
          simp only [WFevs] at hwf
          exact ih down _ hwf
            (fun hd => (dragCount_tickPB total dt s).trans (hclear hd))
            ((dragCount_tickPB total dt s).trans_le h1)

theorem searchsortedR_at_sample (n : ℕ) (ts : ℕ → ℚ)
    (hmono : StrictTimes n ts) (i : ℕ) (hi : i < n) :
    searchsortedR n ts (ts i) = i + 1 := by
  unfold searchsortedR
  have hset : (Finset.range n).filter (fun j => ts j ≤ ts i) =
      Finset.range (i + 1) := by
    ext j
    simp only [Finset.mem_filter, Finset.mem_range]
    constructor
    · rintro ⟨hjn, hle⟩
      by_contra hgt
      push_neg at hgt
      exact absurd hle (not_le.mpr (hmono i j hgt hjn))
    · intro hj
      refine ⟨lt_of_lt_of_le (Nat.lt_of_lt_of_le hj (Nat.succ_le_of_lt hi)) (le_refl n), ?_⟩
      rcases Nat.lt_succ_iff_lt_or_eq.mp hj with hlt | heq
      · exact le_of_lt (hmono j i hlt hi)
      · exact le_of_eq (by rw [heq])
  rw [hset, Finset.card_range]

theorem searchsortedR_below (n : ℕ) (ts : ℕ → ℚ)
    (hmono : StrictTimes n ts) (t : ℚ) (ht : t < ts 0) :
    searchsortedR n ts t = 0 := by
  unfold searchsortedR
  rw [Finset.card_eq_zero]
  rw [Finset.filter_eq_empty_iff]
  intro j hj
  simp only [Finset.mem_range] at hj
  intro hle
  have h0j : ts 0 ≤ ts j := by
    rcases Nat.eq_zero_or_pos j with h | h
    · exact le_of_eq (by rw [h])
    · exact le_of_lt (hmono 0 j h hj)
  linarith

theorem searchsortedR_above (n : ℕ) (ts : ℕ → ℚ)
    (hmono : StrictTimes n ts) (hn : 1 ≤ n) (t : ℚ) (ht : ts (n - 1) < t) :
    searchsortedR n ts t = n := by
  unfold searchsortedR
  have hset : (Finset.range n).filter (fun j => ts j ≤ t) = Finset.range n := by
    rw [Finset.filter_eq_self]
    intro j hj
    simp only [Finset.mem_range] at hj
    have hjle : ts j ≤ ts (n - 1) := by
      rcases Nat.lt_or_ge j (n - 1) with hlt | hge
      · exact le_of_lt (hmono j (n - 1) hlt (by omega))
      · have : j = n - 1 := by omega
        exact le_of_eq (by rw [this])
    linarith
  rw [hset, Finset.card_range]

theorem vadd_vscale_zero (a v : V3Q) : vadd a (vscale 0 v) = a := by
  simp [vadd, vscale]

theorem vadd_vscale_one (a b : V3Q) : vadd a (vscale 1 (vsub b a)) = b := by
  cases a
  cases b
  simp only [vadd, vscale, vsub, V3Q.mk.injEq]
  refine ⟨by ring, by ring, by ring⟩

theorem lookupIdx_at_sample (n : ℕ) (ts : ℕ → ℚ) (hmono : StrictTimes n ts)
    (i : ℕ) (hi : i < n) : lookupIdx n ts (ts i) = min i (n - 2) := by
  unfold lookupIdx
  rw [searchsortedR_at_sample n ts hmono i hi]
  omega

theorem lookupIdx_below (n : ℕ) (ts : ℕ → ℚ) (hmono : StrictTimes n ts)
    (hn : 2 ≤ n) (t : ℚ) (ht : t < ts 0) : lookupIdx n ts t = 0 := by
  unfold lookupIdx
  rw [searchsortedR_below n ts hmono t ht]
  omega

theorem lookupIdx_above (n : ℕ) (ts : ℕ → ℚ) (hmono : StrictTimes n ts)
    (hn : 2 ≤ n) (t : ℚ) (ht : ts (n - 1) < t) : lookupIdx n ts t = n - 2 := by
  unfold lookupIdx
  rw [searchsortedR_above n ts hmono (by omega) t ht]
  omega

theorem positionAt_sample_inner (n : ℕ) (ts : ℕ → ℚ) (p : ℕ → V3Q)
    (hmono : StrictTimes n ts) (hn : 2 ≤ n) (i : ℕ) (hi : i ≤ n - 2) :
    positionAt n ts p (ts i) = p i := by
  simp only [positionAt]
  rw [lookupIdx_at_sample n ts hmono i (by omega), min_eq_left hi]
  have hz : ts i - ts i = 0 := sub_self (ts i)
  split_ifs with hg
  · rw [hz, zero_div, vadd_vscale_zero]
  · rw [vadd_vscale_zero]

theorem positionAt_sample_last (n : ℕ) (ts : ℕ → ℚ) (p : ℕ → V3Q)
    (hmono : StrictTimes n ts) (hn : 2 ≤ n)
    (hgap : 1 / 1000000 < ts (n - 1) - ts (n - 2)) :
    positionAt n ts p (ts (n - 1)) = p (n - 1) := by
  simp only [positionAt]
  rw [lookupIdx_at_sample n ts hmono (n - 1) (by omega),
    min_eq_right (by omega : n - 2 ≤ n - 1),
    show n - 2 + 1 = n - 1 from by omega, if_pos hgap,
    div_self (by linarith [hgap] : ts (n - 1) - ts (n - 2) ≠ 0)]
  exact vadd_vscale_one (p (n - 2)) (p (n - 1))

theorem positionAt_below_extrapolates (n : ℕ) (ts : ℕ → ℚ) (p : ℕ → V3Q)
    (hmono : StrictTimes n ts) (hn : 2 ≤ n) (t : ℚ) (ht : t < ts 0) :
    positionAt n ts p t =
      vadd (p 0) (vscale
        (if ts 1 - ts 0 > 1 / 1000000 then (t - ts 0) / (ts 1 - ts 0) else 0)
        (vsub (p 1) (p 0))) := by
  simp only [positionAt]
  rw [lookupIdx_below n ts hmono hn t ht]

theorem positionAt_above_extrapolates (n : ℕ) (ts : ℕ → ℚ) (p : ℕ → V3Q)
    (hmono : StrictTimes n ts) (hn : 2 ≤ n) (t : ℚ) (ht : ts (n - 1) < t) :
    positionAt n ts p t =
      vadd (p (n - 2)) (vscale
        (if ts (n - 1) - ts (n - 2) > 1 / 1000000
          then (t - ts (n - 2)) / (ts (n - 1) - ts (n - 2)) else 0)
        (vsub (p (n - 1)) (p (n - 2)))) := by
  simp only [positionAt]
  rw [lookupIdx_above n ts hmono hn t ht, show n - 2 + 1 = n - 1 from by omega]

/-! ## Mesh size and index-bound lemmas -/

theorem length_flatMap_const {α : Type} (n k : ℕ) (f : ℕ → List α)
    (hf : ∀ i, (f i).length = k) :
    ((List.range n).flatMap f).length = n * k := by
  induction n with
  | zero => simp
  | succ m ih =>
      rw [List.range_succ, List.flatMap_append, List.length_append, ih]
      simp only [List.flatMap_cons, List.flatMap_nil, List.append_nil, hf m]
      ring

theorem meshVertices_length (rows cols : ℕ) (V : ℕ → ℕ → V3Q) :
    (meshVertices rows cols V).length = rows * cols := by
  unfold meshVertices
  exact length_flatMap_const rows cols _ (fun r => by
    rw [List.length_map, List.length_range])

theorem triIdx1_length (rows cols : ℕ) :
    (triIdx1 rows cols).length = (rows - 1) * ((cols - 1) * 3) := by
  unfold triIdx1
  exact length_flatMap_const (rows - 1) ((cols - 1) * 3) _ (fun r =>
    length_flatMap_const (cols - 1) 3 _ (fun c => rfl))

theorem triIdx2_length (rows cols : ℕ) :
    (triIdx2 rows cols).length = (rows - 1) * ((cols - 1) * 3) := by
  unfold triIdx2
  exact length_flatMap_const (rows - 1) ((cols - 1) * 3) _ (fun r =>
    length_flatMap_const (cols - 1) 3 _ (fun c => rfl))

theorem meshIndices_length (rows cols : ℕ) :
    (meshIndices rows cols).length = 6 * (rows - 1) * (cols - 1) := by
  unfold meshIndices
  rw [List.length_append, triIdx1_length, triIdx2_length]
  ring

theorem grid_index_lt (rows cols a b : ℕ) (ha : a < rows) (hb : b < cols) :
    a * cols + b < rows * cols := by
  calc a * cols + b < a * cols + cols := by omega
    _ = (a + 1) * cols := by ring
    _ ≤ rows * cols := Nat.mul_le_mul_right cols (by omega)

theorem meshIndices_mem_lt (rows cols : ℕ) :
    ∀ i ∈ meshIndices rows cols, i < rows * cols := by
  intro i hi
  unfold meshIndices triIdx1 triIdx2 at hi
  rcases List.mem_append.mp hi with h | h <;>
  · simp only [List.mem_flatMap, List.mem_range, List.mem_cons,
      List.not_mem_nil, or_false] at h
    obtain ⟨r, hr, c, hc, hmem⟩ := h
    rcases hmem with rfl | rfl | rfl <;>
      exact grid_index_lt rows cols _ _ (by omega) (by omega)

/-! ## Grid-range evaluation lemmas for small grids -/

theorem gridVals_two_two (F : ℕ → ℕ → ℚ) :
    gridVals 2 2 F = [F 0 0, F 0 1, F 1 0, F 1 1] := by
  simp [gridVals, List.range_succ]

theorem gridRange_two_two_const (F : ℕ → ℕ → ℚ)
    (h : ∀ r c, r < 2 → c < 2 → F r c = F 0 0) :
    gridRange 2 2 F = 0 := by
  unfold gridRange
  rw [gridVals_two_two,
    h 0 1 (by omega) (by omega), h 1 0 (by omega) (by omega),
    h 1 1 (by omega) (by omega)]
  simp [listMaxD, listMinD]

theorem normR_nonneg (v : V3R) : 0 ≤ normR v := Real.sqrt_nonneg _

theorem normR_eq_zero_iff (v : V3R) :
    normR v = 0 ↔ v.x = 0 ∧ v.y = 0 ∧ v.z = 0 := by
  unfold normR
  constructor
  · intro h
    have hnn : 0 ≤ v.x ^ 2 + v.y ^ 2 + v.z ^ 2 := by positivity
    have hsq : v.x ^ 2 + v.y ^ 2 + v.z ^ 2 = 0 := by
      have h2 := Real.sq_sqrt hnn
      rw [h] at h2
      simpa using h2.symm
    refine ⟨?_, ?_, ?_⟩ <;> nlinarith [sq_nonneg v.x, sq_nonneg v.y, sq_nonneg v.z]
  · rintro ⟨hx, hy, hz⟩
    rw [hx, hy, hz]
    norm_num

/-- Cells with a nonzero cross product receive a unit normal. -/
theorem normalAt_unit (rows cols : ℕ) (X Y Z : ℕ → ℕ → ℝ) (r c : ℕ)
    (h : normR (crossAt rows cols X Y Z r c) ≠ 0) :
    normR (normalAt rows cols X Y Z r c) = 1 := by
  unfold normalAt
  dsimp only
  rw [if_neg h]
  set nv := crossAt rows cols X Y Z r c with hnv
  set L := normR nv with hL
  have hS : 0 ≤ nv.x ^ 2 + nv.y ^ 2 + nv.z ^ 2 := by positivity
  have hL2 : L ^ 2 = nv.x ^ 2 + nv.y ^ 2 + nv.z ^ 2 := Real.sq_sqrt hS
  have hLpos : 0 < L := lt_of_le_of_ne (normR_nonneg nv) (Ne.symm h)
  unfold normR
  have hinner : (nv.x / L) ^ 2 + (nv.y / L) ^ 2 + (nv.z / L) ^ 2 = 1 := by
    field_simp
    linarith [hL2]
  rw [hinner, Real.sqrt_one]

/-- Cells with a zero cross product keep the zero vector: the division
guard replaces the zero length by 1, so 0 / 1 = 0 in every component. -/
theorem normalAt_zero_cross (rows cols : ℕ) (X Y Z : ℕ → ℕ → ℝ) (r c : ℕ)
    (h : normR (crossAt rows cols X Y Z r c) = 0) :
    normalAt rows cols X Y Z r c = ⟨0, 0, 0⟩ := by
  obtain ⟨hx, hy, hz⟩ := (normR_eq_zero_iff _).mp h
  unfold normalAt
  dsimp only
  rw [if_pos h, hx, hy, hz]
  norm_num

/-! ## Claim theorems -/

/-- C1: starting from the initial playback state (cursor 0, not playing),
for every sequence of frame ticks with nonnegative dt (the speed
multiplier, updated only by the speed slider, stays in [1, 50] by the same
invariant), progress-bar presses, play-button presses and any other input
events, the cursor satisfies 0 ≤ playback_time ≤ total after every
event; and whenever a tick changes the cursor and leaves it at total, the
playing flag is false in that same step. -/
theorem C1_playback_bounds (total : ℚ) (htot : 0 ≤ total) (evs : List Ev)
    (hok : ∀ e ∈ evs, evOK e = true) :
    (0 ≤ (runEv total evs).playback_time ∧
      (runEv total evs).playback_time ≤ total) ∧
    (∀ (s : PState) (dt : ℚ), tickPB total dt s ≠ s →
      (tickPB total dt s).playback_time = total →
      (tickPB total dt s).playing = false) := by
  constructor
  · have h := pinv_foldl total htot evs initState hok (pinv_initState total htot)
    exact ⟨h.1, h.2.1⟩
  · intro s dt hne hend
    unfold tickPB at hne hend ⊢
    by_cases hp : s.playing = true ∧ s.progress_dragging = false
    · rw [if_pos hp] at hend ⊢
      dsimp only at hend ⊢
      by_cases hge : s.playback_time + dt * s.speed_scale ≥ total
      · rw [if_pos hge]
      · rw [if_neg hge] at hend
        exact absurd hend (ne_of_lt (lt_of_not_ge hge))
    · rw [if_neg hp] at hne
      exact absurd rfl hne

/-- C1 witness: a play-button press followed by a tick of 5 seconds at the
default 3x speed reaches and is clamped at total = 10. -/
theorem C1_playback_bounds_witness :
    0 ≤ (runEv 10 [Ev.press 30 300 1280 800, Ev.tick 5]).playback_time ∧
      (runEv 10 [Ev.press 30 300 1280 800, Ev.tick 5]).playback_time ≤ 10 :=
  (C1_playback_bounds 10 (by norm_num) [Ev.press 30 300 1280 800, Ev.tick 5]
    (by norm_num [evOK])).1

/-- C5: for an R×C downsampled grid the terrain mesh has exactly R·C
vertices and exactly 6·(R-1)·(C-1) triangle indices, and every index lies
in [0, R·C - 1]. -/
theorem C5_mesh_sizes (rows cols : ℕ) (V : ℕ → ℕ → V3Q)
    (hr : 2 ≤ rows) (hc : 2 ≤ cols) :
    (meshVertices rows cols V).length = rows * cols ∧
    (meshIndices rows cols).length = 6 * (rows - 1) * (cols - 1) ∧
    ∀ i ∈ meshIndices rows cols, i < rows * cols :=
  ⟨meshVertices_length rows cols V, meshIndices_length rows cols,
    meshIndices_mem_lt rows cols⟩

/-- C5 witness: the 2×3 grid mesh has 6 vertices, 12 indices, all below
6. -/
theorem C5_mesh_sizes_witness :
    (meshVertices 2 3 (fun _ _ => ⟨0, 0, 0⟩)).length = 2 * 3 ∧
    (meshIndices 2 3).length = 6 * (2 - 1) * (3 - 1) ∧
    ∀ i ∈ meshIndices 2 3, i < 2 * 3 :=
  C5_mesh_sizes 2 3 (fun _ _ => ⟨0, 0, 0⟩) (by norm_num) (by norm_num)

/-- C6: an empty or single-row or single-column grid aborts scene
construction with an error (in the source an uncaught numpy ValueError —
the spec's DegenerateGeometry failure — raised before the mesh arrays are
complete), so no mesh is produced and the render loop is never entered. -/
theorem C6_degenerate_rejected (rows cols : ℕ) (V : ℕ → ℕ → V3Q)
    (h : rows < 2 ∨ cols < 2) :
    ∃ e, sceneBuild rows cols V = Except.error e := by
  unfold sceneBuild
  by_cases h0 : rows = 0 ∨ cols = 0
  · rw [if_pos h0]
    exact ⟨_, rfl⟩
  · rw [if_neg h0, if_pos h]
    exact ⟨_, rfl⟩

/-- C6 witness: a single-row grid with 5 columns is rejected. -/
theorem C6_degenerate_rejected_witness :
    ∃ e, sceneBuild 1 5 (fun _ _ => ⟨0, 0, 0⟩) = Except.error e :=
  C6_degenerate_rejected 1 5 (fun _ _ => ⟨0, 0, 0⟩) (Or.inl (by norm_num))

/-- C10 counterexample: a left press on the play/pause button (inside no
slider and no progress bar) activates none of the four drag modes, so a
left-button press does not always activate exactly one of them. -/
theorem C10_counterexample :
    dragCount (mousePress 100 30 300 1280 800 initState) = 0 ∧
    dragCount (mousePress 100 30 300 1280 800 initState) ≠ 1 := by
  have hpress : mousePress 100 30 300 1280 800 initState =
      { initState with playing := true } := by
    norm_num [mousePress, initState, UI_X, UI_Y, UI_W, UI_H, SPEED_UI_Y,
      PLAY_BTN_Y, PLAY_BTN_W, max_def]
  rw [hpress]
  constructor <;> simp [dragCount, initState]

/-- C10 (amended): at most one of the four drag modes is ever active along
any well-formed event sequence; a left press from an idle state activates
at most one drag mode (exactly one except on the play button, which
activates none); and a left release clears all four flags regardless of
cursor position. -/
theorem C10_drag_exclusive (total : ℚ) (evs : List Ev)
    (hwf : WFevs false evs) :
    dragCount (runEv total evs) ≤ 1 ∧
    (∀ s : PState, dragCount (mouseRelease s) = 0) ∧
    (∀ (x y w h : ℚ) (s : PState), dragCount s = 0 →
      dragCount (mousePress total x y w h s) ≤ 1) := by
  refine ⟨?_, dragCount_mouseRelease,
    fun x y w h s hs => dragCount_mousePress_le_one total x y w h s hs⟩
  have h0 : dragCount initState = 0 := by decide
  exact dragCount_foldl_le_one total evs false initState hwf (fun _ => h0)
    (h0.trans_le (by norm_num))

/-- C10 witness: a z-slider press, a release, then a camera-drag press keep
at most one drag mode active. -/
theorem C10_drag_exclusive_witness :
    dragCount (runEv 10
      [Ev.press 30 220 1280 800, Ev.release, Ev.press 600 400 1280 800]) ≤ 1 :=
  (C10_drag_exclusive 10
    [Ev.press 30 220 1280 800, Ev.release, Ev.press 600 400 1280 800]
    (by simp [WFevs])).1

/-- C8 counterexample: with total duration 100 and the clock Playing at
t = 50, a progress-bar press at x = 330 in a 1280×800 window (click ratio
1/4) leaves playing = true and moves the cursor to 25, while the claim
demands playing = false with the cursor frozen at 50. -/
theorem C8_counterexample :
    (mousePress 100 330 775 1280 800 s8).playing = true ∧
    (mousePress 100 330 775 1280 800 s8).playback_time = 25 := by
  have hpress : mousePress 100 330 775 1280 800 s8 =
      { s8 with progress_dragging := true, playback_time := 25 } := by
    norm_num [mousePress, s8, initState, UI_X, UI_Y, UI_W, UI_H, SPEED_UI_Y,
      PLAY_BTN_Y, PLAY_BTN_W, max_def, min_def, clamp01]
  rw [hpress]
  exact ⟨rfl, rfl⟩

/-- C8 (amended): a scrub press on the progress bar sets the progress-drag
flag and jumps the cursor to the clicked ratio of the total duration; the
playing flag is unchanged (not forced to Paused), and while the drag flag
is set frame ticks leave the cursor unchanged, so playback is suspended
rather than stopped. -/
theorem C8_scrub_start (total x y w h : ℚ) (s : PState)
    (hx1 : 20 ≤ x) (hx2 : x ≤ 20 + max 10 (w - 40))
    (hy1 : h - 30 ≤ y) (hy2 : y ≤ h - 20)
    (hnz : ¬(UI_Y ≤ y ∧ y ≤ UI_Y + UI_H))
    (hns : ¬(SPEED_UI_Y ≤ y ∧ y ≤ SPEED_UI_Y + UI_H)) :
    (mousePress total x y w h s).progress_dragging = true ∧
    (mousePress total x y w h s).playing = s.playing ∧
    (mousePress total x y w h s).playback_time =
      clamp01 ((x - 20) / max 10 (w - 40)) * total ∧
    (∀ dt, (tickPB total dt (mousePress total x y w h s)).playback_time =
      (mousePress total x y w h s).playback_time) := by
  have hpress : mousePress total x y w h s =
      { s with progress_dragging := true,
               playback_time := clamp01 ((x - 20) / max 10 (w - 40)) * total } := by
    unfold mousePress
    dsimp only
    rw [if_neg (fun hc => hnz ⟨hc.2.2.1, hc.2.2.2⟩),
      if_neg (fun hc => hns ⟨hc.2.2.1, hc.2.2.2⟩),
      if_pos ⟨hx1, hx2, hy1, by linarith⟩]
  rw [hpress]
  refine ⟨rfl, rfl, rfl, fun dt => ?_⟩
  unfold tickPB
  rw [if_neg (fun hc => by simpa using hc.2)]

/-- C8 witness: the amended behaviour at the concrete scrub press of the
counterexample state. -/
theorem C8_scrub_start_witness :
    (mousePress 100 330 775 1280 800 s8).progress_dragging = true ∧
    (mousePress 100 330 775 1280 800 s8).playing = s8.playing ∧
    (mousePress 100 330 775 1280 800 s8).playback_time =
      clamp01 ((330 - 20) / max 10 (1280 - 40)) * 100 ∧
    (∀ dt, (tickPB 100 dt (mousePress 100 330 775 1280 800 s8)).playback_time =
      (mousePress 100 330 775 1280 800 s8).playback_time) :=
  C8_scrub_start 100 330 775 1280 800 s8 (by norm_num) (by norm_num [max_def])
    (by norm_num) (by norm_num) (by norm_num [UI_Y, UI_H])
    (by norm_num [SPEED_UI_Y, UI_H])

/-- C2 counterexample: a strictly increasing two-sample path with time
offsets 0 and 1e-6; the lookup at the last sample time returns the first
position, because the interpolation guard zeroes alpha when the bracketing
gap is not strictly greater than 1e-6 — so exactness at every sample index
fails as stated. -/
theorem C2_counterexample :
    StrictTimes 2 tsC2 ∧ positionAt 2 tsC2 pC2 (tsC2 1) = pC2 0 ∧
      pC2 1 ≠ pC2 0 := by
  have hmono : StrictTimes 2 tsC2 := by
    intro a b hab hb
    have hb1 : b = 1 := by omega
    have ha0 : a = 0 := by omega
    subst hb1
    subst ha0
    norm_num [tsC2]
  refine ⟨hmono, ?_, by norm_num [pC2, V3Q.mk.injEq]⟩
  have hidx : lookupIdx 2 tsC2 (tsC2 1) = 0 := by
    unfold lookupIdx
    rw [searchsortedR_at_sample 2 tsC2 hmono 1 (by norm_num)]
    omega
  simp only [positionAt]
  rw [hidx, if_neg (by norm_num [tsC2]), vadd_vscale_zero]

/-- C2 (amended): with strictly increasing time offsets whose final gap
exceeds the 1e-6 interpolation guard, the position lookup is exact at every
sample index (the counterexample shows exactness fails at the last index
when the final gap is at most 1e-6); and for the 3-sample scenario with
offsets 0, 10, 20 the lookup at t = 5 yields P0 + 0.5 × (P1 - P0). -/
theorem C2_interpolation_exact (n : ℕ) (ts : ℕ → ℚ) (p : ℕ → V3Q)
    (hmono : StrictTimes n ts) (hn : 2 ≤ n)
    (hgap : 1 / 1000000 < ts (n - 1) - ts (n - 2)) :
    (∀ i < n, positionAt n ts p (ts i) = p i) ∧
    (∀ q : ℕ → V3Q, positionAt 3 tsSc q 5 =
      vadd (q 0) (vscale (1/2) (vsub (q 1) (q 0)))) := by
  constructor
  · intro i hi
    rcases Nat.lt_or_ge i (n - 1) with hlt | hge
    · exact positionAt_sample_inner n ts p hmono hn i (by omega)
    · have hieq : i = n - 1 := by omega
      rw [hieq]
      exact positionAt_sample_last n ts p hmono hn hgap
  · intro q
    have hsr : searchsortedR 3 tsSc 5 = 1 := by
      unfold searchsortedR
      rw [show Finset.range 3 = {0, 1, 2} from by decide]
      rw [Finset.filter_insert, Finset.filter_insert, Finset.filter_singleton]
      norm_num [tsSc]
    have hidx : lookupIdx 3 tsSc 5 = 0 := by
      unfold lookupIdx
      rw [hsr]
      omega
    simp only [positionAt]
    rw [hidx, if_pos (by norm_num [tsSc])]
    norm_num [tsSc]

/-- C2 witness: the amended exactness applied to the scenario offsets at
sample index 1. -/
theorem C2_interpolation_exact_witness :
    positionAt 3 tsSc pSc (tsSc 1) = pSc 1 :=
  (C2_interpolation_exact 3 tsSc pSc
    (by
      intro a b hab hb
      have hq : (a:ℚ) < b := by exact_mod_cast hab
      simp only [tsSc]
      linarith)
    (by norm_num) (by norm_num [tsSc])).1 1 (by norm_num)

/-- C7 counterexample: two samples at times 0 and 1 with positions (0,0,0)
and (1,0,0); the lookup at t = -1 (below the time span) returns (-1,0,0),
the linear extrapolation of the first segment, not the first sample
position (0,0,0) that the claim requires. -/
theorem C7_counterexample :
    positionAt 2 tsC7 pC7 (-1) = ⟨-1, 0, 0⟩ ∧ pC7 0 = ⟨0, 0, 0⟩ ∧
      positionAt 2 tsC7 pC7 (-1) ≠ pC7 0 := by
  have hmono7 : StrictTimes 2 tsC7 := by
    intro a b hab hb
    have hq : (a:ℚ) < b := by exact_mod_cast hab
    simpa [tsC7] using hq
  have hidx : lookupIdx 2 tsC7 (-1) = 0 := by
    unfold lookupIdx
    rw [searchsortedR_below 2 tsC7 hmono7 (-1) (by norm_num [tsC7])]
    omega
  have hval : positionAt 2 tsC7 pC7 (-1) = ⟨-1, 0, 0⟩ := by
    simp only [positionAt]
    rw [hidx, if_pos (by norm_num [tsC7])]
    norm_num [tsC7, pC7, vadd, vsub, vscale, V3Q.mk.injEq]
  refine ⟨hval, by norm_num [pC7], ?_⟩
  rw [hval]
  norm_num [pC7, V3Q.mk.injEq]

/-- C7 (amended): an out-of-range time lookup does not fail: the bracketing
index is clamped to the boundary segment (the first segment when t is below
the span, the last when above) and the result is the linear extrapolation
of that segment under the 1e-6 alpha guard — the boundary sample position
itself is returned only when the guard zeroes alpha or t equals the
boundary time. -/
theorem C7_out_of_range (n : ℕ) (ts : ℕ → ℚ) (p : ℕ → V3Q)
    (hmono : StrictTimes n ts) (hn : 2 ≤ n) (t : ℚ) :
    (t < ts 0 → positionAt n ts p t =
      vadd (p 0) (vscale
        (if ts 1 - ts 0 > 1 / 1000000 then (t - ts 0) / (ts 1 - ts 0) else 0)
        (vsub (p 1) (p 0)))) ∧
    (ts (n - 1) < t → positionAt n ts p t =
      vadd (p (n - 2)) (vscale
        (if ts (n - 1) - ts (n - 2) > 1 / 1000000
          then (t - ts (n - 2)) / (ts (n - 1) - ts (n - 2)) else 0)
        (vsub (p (n - 1)) (p (n - 2))))) :=
  ⟨fun ht => positionAt_below_extrapolates n ts p hmono hn t ht,
   fun ht => positionAt_above_extrapolates n ts p hmono hn t ht⟩

/-- C7 witness: the below-span branch applied to the two-sample path at
t = -1. -/
theorem C7_out_of_range_witness :
    positionAt 2 tsC7 pC7 (-1) =
      vadd (pC7 0) (vscale
        (if tsC7 1 - tsC7 0 > 1 / 1000000
          then ((-1) - tsC7 0) / (tsC7 1 - tsC7 0) else 0)
        (vsub (pC7 1) (pC7 0))) :=
  (C7_out_of_range 2 tsC7 pC7
    (by
      intro a b hab hb
      have hq : (a:ℚ) < b := by exact_mod_cast hab
      simpa [tsC7] using hq)
    (by norm_num) (-1)).1 (by norm_num [tsC7])

/-- C9 counterexample: a 2×2 grid whose four heights all equal 5 but whose
local X and Y coordinates each span 100 units; the computed global scale is
200 / 100 = 2, not the claimed targetSceneSize = 200. -/
theorem C9_counterexample :
    globalScaleOf 2 2 XC9 YC9 ZC9 = 2 ∧ (2:ℚ) ≠ 200 := by
  constructor
  · have hX : gridRange 2 2 XC9 = 100 := by
      unfold gridRange
      rw [gridVals_two_two]
      norm_num [XC9, listMaxD, listMinD, max_def, min_def]
    have hY : gridRange 2 2 YC9 = 100 := by
      unfold gridRange
      rw [gridVals_two_two]
      norm_num [YC9, listMaxD, listMinD, max_def, min_def]
    have hZ : gridRange 2 2 ZC9 = 0 := by
      unfold gridRange
      rw [gridVals_two_two]
      norm_num [ZC9, demC9, gridVals_two_two, listMaxD, listMinD,
        max_def, min_def]
    unfold globalScaleOf
    rw [hX, hY, hZ]
    norm_num [sceneScale, sceneDivisor, max_def]
  · norm_num

/-- C9 (amended): the scene-scale divisor is never zero — a zero maximal
range falls back to divisor 1 — and a 2×2 all-equal-height grid yields
globalScale = targetSceneSize = 200 exactly when its local X and Y ranges
are also zero; with a nonzero horizontal range the counterexample shows the
result is targetSceneSize / max(rangeX, rangeY) instead. -/
theorem C9_scene_scale (Xl Yl dem : ℕ → ℕ → ℚ)
    (hX : gridRange 2 2 Xl = 0) (hY : gridRange 2 2 Yl = 0)
    (hdem : ∀ r c, r < 2 → c < 2 → dem r c = dem 0 0) :
    (∀ range_x range_y range_z : ℚ,
      sceneDivisor range_x range_y range_z ≠ 0) ∧
    globalScaleOf 2 2 Xl Yl
      (fun r c => dem r c - listMinD (gridVals 2 2 dem)) = 200 := by
  constructor
  · intro rx ry rz
    unfold sceneDivisor
    dsimp only
    split_ifs with hmax
    · norm_num
    · exact hmax
  · have hZ : gridRange 2 2
        (fun r c => dem r c - listMinD (gridVals 2 2 dem)) = 0 := by
      apply gridRange_two_two_const
      intro r c hr hc
      dsimp only
      rw [hdem r c hr hc]
    unfold globalScaleOf
    rw [hX, hY, hZ]
    norm_num [sceneScale, sceneDivisor]

/-- C9 witness: constant coordinate grids with all heights 5 give global
scale 200. -/
theorem C9_scene_scale_witness :
    (∀ range_x range_y range_z : ℚ,
      sceneDivisor range_x range_y range_z ≠ 0) ∧
    globalScaleOf 2 2 (fun _ _ => (7:ℚ)) (fun _ _ => (3:ℚ))
      (fun r c => (5:ℚ) - listMinD (gridVals 2 2 (fun _ _ => (5:ℚ)))) = 200 :=
  C9_scene_scale (fun _ _ => 7) (fun _ _ => 3) (fun _ _ => 5)
    (gridRange_two_two_const _ (fun _ _ _ _ => rfl))
    (gridRange_two_two_const _ (fun _ _ _ _ => rfl))
    (fun _ _ _ _ => rfl)

theorem segLen2D_pathC3_zero : segLen2D pathC3 0 = 1 := by
  unfold segLen2D pathC3
  norm_num [Real.sqrt_one]

theorem segLen2D_pathC3_one : segLen2D pathC3 1 = 1 := by
  unfold segLen2D pathC3
  norm_num [Real.sqrt_one]

theorem lookCross_pathC3 : lookCross 3 pathC3 0 = -1 := by
  unfold lookCross
  dsimp only
  rw [show min (0 + 5) (3 - 2) = 1 from rfl]
  rw [segLen2D_pathC3_zero, segLen2D_pathC3_one]
  norm_num [pathC3]

/-- C3 counterexample: the 3-point path (0,0) → (0,1) → (1,1) heads north
and then bends right (east); its derived turn angle is
arcsin(-1) = -π/2 < 0, while the claimed sign convention demands a positive
angle for a path bending right. -/
theorem C3_counterexample :
    turnAngles 3 pathC3 0 = -(Real.pi / 2) ∧ turnAngles 3 pathC3 0 < 0 := by
  have hval : turnAngles 3 pathC3 0 = -(Real.pi / 2) := by
    simp only [turnAngles]
    rw [if_pos (by norm_num)]
    simp only [turnRaw]
    rw [show min (0 + 5) (3 - 2) = 1 from rfl]
    rw [if_pos ⟨by rw [segLen2D_pathC3_zero]; norm_num,
      by rw [segLen2D_pathC3_one]; norm_num⟩]
    rw [lookCross_pathC3,
      show max (-1) (min 1 (-1:ℝ)) = -1 from by norm_num [min_def, max_def]]
    exact Real.arcsin_neg_one
  refine ⟨hval, ?_⟩
  rw [hval]
  have hpi := Real.pi_pos
  linarith

/-- C3 (amended/corrected sign): for an interior index whose guarded
segment lengths exceed 1e-6, the turn angle equals
asin(clamp(cross2D(d1, d2), -1, 1)) of the normalized look-ahead
directions, exactly as the claim's formula states; but its sign follows the
standard 2D cross product orientation: a negative cross (look-ahead
direction clockwise of the current one, i.e. a path bending right) gives a
negative angle, a positive cross (bending left) a positive angle, and a
zero cross (straight) zero — the opposite of the claimed
positive-for-right convention. -/
theorem C3_turn_sign (n : ℕ) (p : ℕ → V3R) (i : ℕ) (hin : i + 2 < n)
    (h1 : 1 / 1000000 < segLen2D p i)
    (h2 : 1 / 1000000 < segLen2D p (min (i + 5) (n - 2))) :
    turnAngles n p i = Real.arcsin (max (-1) (min 1 (lookCross n p i))) ∧
    (lookCross n p i < 0 → turnAngles n p i < 0) ∧
    (0 < lookCross n p i → 0 < turnAngles n p i) ∧
    (lookCross n p i = 0 → turnAngles n p i = 0) := by
  have heq : turnAngles n p i =
      Real.arcsin (max (-1) (min 1 (lookCross n p i))) := by
    simp only [turnAngles]
    rw [if_pos hin]
    simp only [turnRaw]
    rw [if_pos ⟨h1, h2⟩]
  refine ⟨heq, fun hc => ?_, fun hc => ?_, fun hc => ?_⟩
  · rw [heq]
    apply Real.arcsin_lt_zero.mpr
    rw [min_eq_right (by linarith : lookCross n p i ≤ 1)]
    exact max_lt (by norm_num) hc
  · rw [heq]
    apply Real.arcsin_pos.mpr
    exact lt_of_lt_of_le (lt_min (by norm_num) hc) (le_max_right _ _)
  · rw [heq, hc]
    norm_num [min_def, max_def, Real.arcsin_zero]

/-- C3 witness: the sign theorem applied to the right-bending concrete
path, whose normalized cross is -1, giving a negative turn angle. -/
theorem C3_turn_sign_witness :
    turnAngles 3 pathC3 0 =
      Real.arcsin (max (-1) (min 1 (lookCross 3 pathC3 0))) ∧
    turnAngles 3 pathC3 0 < 0 := by
  have h1 : (1:ℝ) / 1000000 < segLen2D pathC3 0 := by
    rw [segLen2D_pathC3_zero]
    norm_num
  have h2 : (1:ℝ) / 1000000 < segLen2D pathC3 (min (0 + 5) (3 - 2)) := by
    rw [show min (0 + 5) (3 - 2) = 1 from rfl, segLen2D_pathC3_one]
    norm_num
  have h := C3_turn_sign 3 pathC3 0 (by norm_num) h1 h2
  exact ⟨h.1, h.2.1 (by rw [lookCross_pathC3]; norm_num)⟩

/-- C4 (amended): every grid cell whose tangent cross product has nonzero
length receives a normal of length exactly 1 (the idealization of the
claimed floating tolerance); cells with a zero-length cross product receive
the zero vector — the division guard replaces the zero norm by 1 — and not
the +Z fallback the claim states. -/
theorem C4_normals (rows cols : ℕ) (X Y Z : ℕ → ℕ → ℝ) (r c : ℕ) :
    (normR (crossAt rows cols X Y Z r c) ≠ 0 →
      normR (normalAt rows cols X Y Z r c) = 1) ∧
    (normR (crossAt rows cols X Y Z r c) = 0 →
      normalAt rows cols X Y Z r c = ⟨0, 0, 0⟩) :=
  ⟨normalAt_unit rows cols X Y Z r c, normalAt_zero_cross rows cols X Y Z r c⟩

/-- C4 counterexample: on the all-zero 2×2 grid every tangent vanishes, so
the cross product is zero and the stored normal is the zero vector, not the
claimed +Z fallback. -/
theorem C4_counterexample :
    normalAt 2 2 Z0grid Z0grid Z0grid 0 0 = ⟨0, 0, 0⟩ ∧
    normalAt 2 2 Z0grid Z0grid Z0grid 0 0 ≠ ⟨0, 0, 1⟩ := by
  have hc : crossAt 2 2 Z0grid Z0grid Z0grid 0 0 = ⟨0, 0, 0⟩ := by
    simp [crossAt, crossR, tangentRow, tangentCol, gradRow, gradCol, Z0grid]
  have h0 : normR (crossAt 2 2 Z0grid Z0grid Z0grid 0 0) = 0 := by
    rw [hc]
    simp [normR]
  have hz := normalAt_zero_cross 2 2 Z0grid Z0grid Z0grid 0 0 h0
  refine ⟨hz, ?_⟩
  rw [hz]
  intro hbad
  have hcomp := congrArg V3R.z hbad
  norm_num at hcomp

/-- C4 witness: the grid X = column, Y = row, Z = 0 has cross product
(0, 0, -1) at cell (0,0), and its stored normal has length 1. -/
theorem C4_normals_witness :
    normR (normalAt 2 2 X4 Y4 Z4 0 0) = 1 := by
  have hcross : crossAt 2 2 X4 Y4 Z4 0 0 = ⟨0, 0, -1⟩ := by
    simp [crossAt, crossR, tangentRow, tangentCol, gradRow, gradCol,
      X4, Y4, Z4, V3R.mk.injEq]
  have hne : normR (crossAt 2 2 X4 Y4 Z4 0 0) ≠ 0 := by
    rw [hcross]
    simp only [normR]
    norm_num [Real.sqrt_one]
  exact (C4_normals 2 2 X4 Y4 Z4 0 0).1 hne

